import Mathlib

/-!
Verification of the workout-text parsing core of the garmin-connect-workout
repository: the line tokenizer, the end-condition/target mini-grammar, the
indentation-driven step-tree builder, and the domain model with its
serialization to the external wire-document shape.

Python strings are embedded as `List Char`; machine integers as `Nat`/`Int`;
Python floats as `ℚ` (all arithmetic in scope is exact division of decimal
constants, where rational arithmetic preserves the order facts at issue);
raising code as `Except String`.
-/

namespace Garmin

/-- Shorthand turning a Lean string literal into the `List Char` embedding. -/
def toL (s : String) : List Char := s.toList

/-- Whitespace class used by the Python `str.strip` family. -/
def pyIsSpace (c : Char) : Bool :=
  c = ' ' || c = '\t' || c = '\n' || c = '\x0d' || c = '\x0b' || c = '\x0c'

/-- Python `str.lstrip()`. -/
def lstrip (l : List Char) : List Char := l.dropWhile pyIsSpace

/-- Python `str.rstrip()`. -/
def rstrip (l : List Char) : List Char := (l.reverse.dropWhile pyIsSpace).reverse

/-- Python `str.strip()`. -/
def trim (l : List Char) : List Char := rstrip (lstrip l)

/-- Python `str.lower()` (ASCII range, which is all the grammar uses). -/
def toLowerL (l : List Char) : List Char := l.map Char.toLower

/-- Split at the first occurrence of `c`; `none` when `c` does not occur
(`"a@b".split(c, 1)` together with the `c in s` test). -/
def splitFirst (c : Char) : List Char → Option (List Char × List Char)
  | [] => none
  | x :: xs =>
    if x = c then some ([], xs)
    else (splitFirst c xs).map (fun p => (x :: p.1, p.2))

/-- Python `str.split("\n")`: never returns an empty list. -/
def splitNl : List Char → List (List Char)
  | [] => [[]]
  | c :: rest =>
    if c = '\n' then [] :: splitNl rest
    else
      match splitNl rest with
      | [] => [[c]]
      | h :: t => (c :: h) :: t

/-- Numeric value of an ASCII digit character. -/
def dv (c : Char) : Nat := c.toNat - 48

/-- ASCII digit character for a value below ten. -/
def digitChar (n : Nat) : Char := Char.ofNat (48 + n)

/-- Value of a nonempty all-digit run, most significant first. -/
def digitsVal (l : List Char) : Nat := l.foldl (fun a c => 10 * a + dv c) 0

/-- Python `int(s)` on an already-stripped string: optional sign then a
nonempty digit run. -/
def parseInt (l : List Char) : Option Int :=
  let core : List Char → Option Nat := fun ds =>
    if ds ≠ [] ∧ ds.all Char.isDigit then some (digitsVal ds) else none
  match l with
  | '-' :: ds => (core ds).map (fun n => -(n : Int))
  | '+' :: ds => (core ds).map (fun n => (n : Int))
  | ds => (core ds).map (fun n => (n : Int))

/-! ## Domain model (`domain_models.py`) -/

/-- Garmin step type IDs (`StepType`). -/
inductive StepType where
  | warmup | cooldown | interval | recover | rest | rep
  deriving DecidableEq, Repr

/-- Numeric protocol id of a step type. -/
def StepType.id : StepType → Nat
  | .warmup => 1 | .cooldown => 2 | .interval => 3
  | .recover => 4 | .rest => 5 | .rep => 6

/-- Garmin sport type IDs (`SportType`). -/
inductive SportType where
  | running | cycling | other | swimming
  deriving DecidableEq, Repr

/-- `Target` tagged variant: `NoTarget`, `HeartRateZoneTarget`, `PaceTarget`. -/
inductive Target where
  | noTarget
  | hrZone (zone : Nat)
  | pace (min_speed_mps max_speed_mps : ℚ)
  deriving DecidableEq, Repr

/-- `EndCondition` tagged variant. -/
inductive EndCondition where
  | lapButton
  | time (duration_seconds : Nat)
  | distance (distance_meters : ℚ)
  deriving DecidableEq, Repr

/-- `ExecutableStep` (pydantic model: a plain record here; the keyword
normalization of its field validator is applied at construction sites). -/
structure ExecutableStep where
  step_type : StepType
  step_type_keyword : List Char
  end_condition : EndCondition
  target : Target
  description : Option (List Char)
  is_cross_training : Bool
  deriving DecidableEq, Repr

/-- `WorkoutStep = Union[ExecutableStep, RepeatStep]`, with
`RepeatStep{iterations, steps}` as the recursive constructor. -/
inductive WorkoutStep where
  | exe (e : ExecutableStep)
  | rep (iterations : Nat) (steps : List WorkoutStep)
  deriving Repr

/-- `Workout` record. -/
structure Workout where
  name : List Char
  sport_type : SportType
  steps : List WorkoutStep
  description : Option (List Char)
  deriving Repr

/-- `HeartRateZoneTarget(zone=z)`: pydantic `ge=1, le=5` field constraint. -/
def mkHeartRateZoneTarget (z : Nat) : Except String Target :=
  if 1 ≤ z ∧ z ≤ 5 then .ok (.hrZone z) else .error "zone out of range"

/-- `PaceTarget(min_speed_mps=a, max_speed_mps=b)`: pydantic `gt=0` field
constraints, then the `validate_speed_range` model validator swaps the two
values if they arrive reversed. -/
def mkPaceTarget (a b : ℚ) : Except String Target :=
  if a ≤ 0 ∨ b ≤ 0 then .error "speed must be greater than 0"
  else if a > b then .ok (.pace b a)
  else .ok (.pace a b)

/-- `TimeEndCondition(duration_seconds=n)`: pydantic `gt=0`. -/
def mkTimeEndCondition (n : Nat) : Except String EndCondition :=
  if 0 < n then .ok (.time n) else .error "duration must be greater than 0"

/-- `DistanceEndCondition(distance_meters=q)`: pydantic `gt=0`. -/
def mkDistanceEndCondition (q : ℚ) : Except String EndCondition :=
  if 0 < q then .ok (.distance q) else .error "distance must be greater than 0"

/-- `RepeatStep(iterations=its, steps=ss)`: pydantic `ge=1` on iterations and
`min_length=1` on steps. -/
def mkRepeatStep (its : Int) (ss : List WorkoutStep) : Except String WorkoutStep :=
  if its < 1 then .error "iterations must be at least 1"
  else if ss.isEmpty then .error "steps must be nonempty"
  else .ok (.rep its.toNat ss)

/-- `Workout(name=..., steps=...)`: pydantic `min_length=1, max_length=255`
on the name and `min_length=1` on steps. -/
def mkWorkout (name : List Char) (steps : List WorkoutStep) : Except String Workout :=
  if name.length < 1 ∨ 255 < name.length then .error "invalid workout name length"
  else if steps.isEmpty then .error "steps must be nonempty"
  else .ok ⟨name, .running, steps, none⟩

/-! ## Primitive converters (`domain_models.py`) -/

/-- Anchored matcher for `^(\d{1,3}):(\d{2})$`, returning the numeric values
of the minute and second groups. -/
def matchTime : List Char → Option (Nat × Nat)
  | [a, x, d, e] =>
    if a.isDigit && x = ':' && d.isDigit && e.isDigit then
      some (dv a, 10 * dv d + dv e)
    else none
  | [a, b, x, d, e] =>
    if a.isDigit && b.isDigit && x = ':' && d.isDigit && e.isDigit then
      some (10 * dv a + dv b, 10 * dv d + dv e)
    else none
  | [a, b, c, x, d, e] =>
    if a.isDigit && b.isDigit && c.isDigit && x = ':' && d.isDigit && e.isDigit then
      some (100 * dv a + 10 * dv b + dv c, 10 * dv d + dv e)
    else none
  | _ => none

/-- `parse_duration_to_seconds`: `lap-button` (case-insensitive) means "no
duration"; otherwise the stripped string must match `^(\d{1,3}):(\d{2})$`
with a seconds value below 60, else the function raises. -/
def parse_duration_to_seconds (l : List Char) : Except String (Option Nat) :=
  if toLowerL l = toL "lap-button" then .ok none
  else
    match matchTime (trim l) with
    | none => .error "Invalid duration format"
    | some (m, s) =>
      if 60 ≤ s then .error "Invalid seconds value"
      else .ok (some (m * 60 + s))

/-- Meters per unit for the distance grammar (`conversions` table). -/
def unitToMeters (u : List Char) : Option ℚ :=
  if u = toL "m" then some 1
  else if u = toL "meters" then some 1
  else if u = toL "km" then some 1000
  else if u = toL "kilometers" then some 1000
  else if u = toL "mi" then some (1609344 / 1000)
  else if u = toL "miles" then some (1609344 / 1000)
  else if u = toL "yd" then some (9144 / 10000)
  else if u = toL "yds" then some (9144 / 10000)
  else none

/-- Anchored matcher for `^(\d+(?:\.\d+)?)\s*(km|mi|m|yds|yd|meters|miles|kilometers)$`
on an already-lowercased string: the decimal value of the number group and
the unit's conversion factor. -/
def matchDistance (l : List Char) : Option (ℚ × ℚ) :=
  let (intDigits, r1) := l.span Char.isDigit
  if intDigits.isEmpty then none
  else
    let (value, r2) : ℚ × List Char :=
      match r1 with
      | '.' :: rest =>
        let (fracDigits, r3) := rest.span Char.isDigit
        if fracDigits.isEmpty then ((digitsVal intDigits : ℚ), r1)
        else
          (((digitsVal intDigits : ℚ) +
            (digitsVal fracDigits : ℚ) / ((10 : ℚ) ^ fracDigits.length)), r3)
      | _ => ((digitsVal intDigits : ℚ), r1)
    let unit := r2.dropWhile pyIsSpace
    match unitToMeters unit with
    | some conv => some (value, conv)
    | none => none

/-- `parse_distance_to_meters`: strip and lowercase, match the distance
grammar, multiply the value by the unit conversion; raise on mismatch. -/
def parse_distance_to_meters (l : List Char) : Except String ℚ :=
  match matchDistance (toLowerL (trim l)) with
  | some (v, conv) => .ok (v * conv)
  | none => .error "Invalid distance format"

/-- Reads `\d{1,2}:\d{2}` at the front of a list: total seconds and the
remaining suffix. -/
def readTime2 : List Char → Option (Nat × List Char)
  | a :: ':' :: d :: e :: rest =>
    if a.isDigit && d.isDigit && e.isDigit then
      some ((dv a) * 60 + 10 * dv d + dv e, rest)
    else none
  | a :: b :: ':' :: d :: e :: rest =>
    if a.isDigit && b.isDigit && d.isDigit && e.isDigit then
      some ((10 * dv a + dv b) * 60 + 10 * dv d + dv e, rest)
    else none
  | _ => none

/-- Anchored matcher for `^(\d{1,2}):(\d{2})\s*-\s*(\d{1,2}):(\d{2})$`:
total seconds of the slow (first) and fast (second) endpoints. -/
def matchPaceCore (l : List Char) : Option (Nat × Nat) :=
  match readTime2 l with
  | none => none
  | some (slow, r1) =>
    match r1.dropWhile pyIsSpace with
    | '-' :: r2 =>
      match readTime2 (r2.dropWhile pyIsSpace) with
      | none => none
      | some (fast, r3) => if r3.isEmpty then some (slow, fast) else none
    | _ => none

/-- True when `l` ends with the given suffix (Python `str.endswith`). -/
def endsWith (suffix l : List Char) : Bool := l.reverse.take suffix.length = suffix.reverse

/-- `parse_pace_to_meters_per_second`: strip and lowercase, strip an optional
`mpm`/`mpk` suffix (`mpm` selects miles), match the pace-range grammar, and
convert each endpoint from time-per-distance to speed (`0.0` when the
endpoint is `0:00`). -/
def parse_pace_to_meters_per_second (l : List Char) : Except String (ℚ × ℚ) :=
  let s0 := toLowerL (trim l)
  let (is_per_mile, s) :=
    if endsWith (toL "mpm") s0 then (true, trim (s0.take (s0.length - 3)))
    else if endsWith (toL "mpk") s0 then (false, trim (s0.take (s0.length - 3)))
    else (false, s0)
  match matchPaceCore s with
  | none => .error "Invalid pace format"
  | some (slow, fast) =>
    let dist : ℚ := if is_per_mile then 1609344 / 1000 else 1000
    let minS : ℚ := if 0 < slow then dist / slow else 0
    let maxS : ℚ := if 0 < fast then dist / fast else 0
    .ok (minS, maxS)

/-- `parse_hr_zone`: strip and lowercase, match `^z([1-5])$`; raise otherwise. -/
def parse_hr_zone (l : List Char) : Except String Nat :=
  match toLowerL (trim l) with
  | ['z', c] => if '1' ≤ c ∧ c ≤ '5' then .ok (dv c) else .error "Invalid HR zone"
  | _ => .error "Invalid HR zone"

/-! ## Line tokenizer and mini-grammar resolvers (`csv_parser.py`) -/

/-- `ParsedLine` named tuple. -/
structure ParsedLine where
  indent_level : Nat
  keyword : List Char
  value : List Char
  notes : Option (List Char)
  deriving DecidableEq, Repr

/-- `get_indent_level`: leading whitespace count, integer-divided by two. -/
def get_indent_level (l : List Char) : Nat :=
  (l.takeWhile pyIsSpace).length / 2

/-- `parse_line`: strip trailing whitespace, skip blank lines, compute the
indent level, drop an optional leading `"- "` or `"-"`, split at the first
`:` into keyword and value, and split the value at the first `;` into value
and note. -/
def parse_line (l : List Char) : Option ParsedLine :=
  let line := rstrip l
  if (lstrip line).isEmpty then none
  else
    let indent := get_indent_level line
    let content := lstrip line
    let content :=
      match content with
      | '-' :: ' ' :: rest => rest
      | '-' :: rest => rest
      | _ => content
    match splitFirst ':' content with
    | none => none
    | some (kw, rest0) =>
      let keyword := toLowerL (trim kw)
      let rest1 := trim rest0
      match splitFirst ';' rest1 with
      | none => some ⟨indent, keyword, rest1, none⟩
      | some (v, n) => some ⟨indent, keyword, trim v, some (trim n)⟩

/-- Anchored test for `^z[1-5]$` with `re.IGNORECASE` (the guard regex of
`parse_target`). -/
def matchHrZoneGuard (l : List Char) : Bool :=
  match toLowerL l with
  | ['z', c] => decide ('1' ≤ c ∧ c ≤ '5')
  | _ => false

/-- Anchored test for `^\d{1,2}:\d{2}\s*-\s*\d{1,2}:\d{2}(mpk|mpm)?$` with
`re.IGNORECASE` (the guard regex of `parse_target`). -/
def matchPaceGuard (l : List Char) : Bool :=
  let low := toLowerL l
  let core :=
    if endsWith (toL "mpk") low ∨ endsWith (toL "mpm") low then
      low.take (low.length - 3)
    else low
  (matchPaceCore core).isSome

/-- `parse_target`: heart-rate zone, pace range, or `NoTarget` fallback for
anything else; pace targets go through the raising `PaceTarget` constructor. -/
def parse_target (l : List Char) : Except String Target :=
  if matchHrZoneGuard (trim l) then
    match parse_hr_zone (trim l) with
    | .error e => .error e
    | .ok z => mkHeartRateZoneTarget z
  else if matchPaceGuard (trim l) then
    match parse_pace_to_meters_per_second (trim l) with
    | .error e => .error e
    | .ok (mn, mx) => mkPaceTarget mn mx
  else .ok .noTarget

/-- `parse_end_condition_and_target`: split the stripped value at the first
`@` (the right side feeds `parse_target`), then classify the left side as
lap-button literal, time pattern, distance pattern, or the lap-button
fallback. -/
def parse_end_condition_and_target (l : List Char) :
    Except String (EndCondition × Target) :=
  let v0 := trim l
  let (v, targetRes) :=
    match splitFirst '@' v0 with
    | some (a, b) => (trim a, parse_target b)
    | none => (v0, .ok Target.noTarget)
  match targetRes with
  | .error e => .error e
  | .ok target =>
    if toLowerL v = toL "lap-button" then .ok (.lapButton, target)
    else if (matchTime v).isSome then
      match parse_duration_to_seconds v with
      | .error e => .error e
      | .ok none => .ok (.lapButton, target)
      | .ok (some s) =>
        match mkTimeEndCondition s with
        | .error e => .error e
        | .ok ec => .ok (ec, target)
    else if (matchDistance (toLowerL v)).isSome then
      match parse_distance_to_meters v with
      | .error e => .error e
      | .ok meters =>
        match mkDistanceEndCondition meters with
        | .error e => .error e
        | .ok ec => .ok (ec, target)
    else .ok (.lapButton, target)

/-- `STEP_TYPE_MAP`: `none` = unknown keyword, `some none` = the `note`
pseudo-keyword, `some (some t)` = a real step type. -/
def STEP_TYPE_MAP (k : List Char) : Option (Option StepType) :=
  if k = toL "warmup" then some (some .warmup)
  else if k = toL "cooldown" then some (some .cooldown)
  else if k = toL "run" then some (some .interval)
  else if k = toL "interval" then some (some .interval)
  else if k = toL "go" then some (some .interval)
  else if k = toL "other" then some (some .interval)
  else if k = toL "stair" then some (some .interval)
  else if k = toL "recover" then some (some .recover)
  else if k = toL "recovery" then some (some .recover)
  else if k = toL "rest" then some (some .rest)
  else if k = toL "repeat" then some (some .rep)
  else if k = toL "note" then some none
  else none

/-- `CROSS_TRAINING_KEYWORDS` membership. -/
def isCrossTrainingKeyword (k : List Char) : Bool :=
  k = toL "other" || k = toL "stair"

/-- `parse_step`: unknown keywords, `note`, and `repeat` yield no step;
otherwise resolve the end condition and target (which can raise) and build
the `ExecutableStep`. -/
def parse_step (pl : ParsedLine) : Except String (Option ExecutableStep) :=
  match STEP_TYPE_MAP pl.keyword with
  | none => .ok none
  | some none => .ok none
  | some (some st) =>
    if st = StepType.rep then .ok none
    else
      match parse_end_condition_and_target pl.value with
      | .error e => .error e
      | .ok (ec, tg) =>
        .ok (some ⟨st, toLowerL (trim pl.keyword), ec, tg, pl.notes,
                   isCrossTrainingKeyword pl.keyword⟩)

/-! ## Tree builder (`_build_steps_recursive`, `build_step_tree`) -/

/-- Quote stripping for note text: one outer pair of matching `"` or `'`. -/
def stripQuotes (l : List Char) : List Char :=
  if (l.head? = some '"' ∧ l.getLast? = some '"') ∨
     (l.head? = some '\'' ∧ l.getLast? = some '\'') then
    (l.drop 1).dropLast
  else l

/-- Note attachment to an executable step: newline-join when a nonempty
description already exists, else set directly (Python truthiness makes an
empty existing description behave like an absent one). -/
def attachNote (e : ExecutableStep) (t : List Char) : ExecutableStep :=
  let newDesc : List Char :=
    match e.description with
    | some d => if d.isEmpty then t else d ++ '\n' :: t
    | none => t
  { e with description := some newDesc }

/-- One loop iteration of the note branch: update the last accumulated
sibling (executable directly; for a repeat group, the last nested step when
it is executable), or leave the accumulator unchanged. -/
def attachNoteToLast (acc : List WorkoutStep) (t : List Char) : List WorkoutStep :=
  match acc.getLast? with
  | none => acc
  | some (.exe e) => acc.dropLast ++ [.exe (attachNote e t)]
  | some (.rep its ss) =>
    match ss.getLast? with
    | some (.exe e) => acc.dropLast ++ [.rep its (ss.dropLast ++ [.exe (attachNote e t)])]
    | _ => acc

/-- `_build_steps_recursive`, embedded with a structural fuel argument (one
unit per loop iteration; every iteration advances the line index, so
`lines.length + 1` units always suffice from index 0).  `acc` is the `steps`
accumulator of the Python loop; the result pairs the collected steps with
the next index to process. -/
def buildFuel : Nat → List ParsedLine → Nat → List WorkoutStep → Nat →
    Except String (List WorkoutStep × Nat)
  | 0, _, _, _, _ => .error "out of fuel"
  | fuel + 1, lines, expected_indent, acc, i =>
    match lines[i]? with
    | none => .ok (acc, i)
    | some line =>
      if line.indent_level < expected_indent then .ok (acc, i)
      else if expected_indent < line.indent_level then
        buildFuel fuel lines expected_indent acc (i + 1)
      else if line.keyword = toL "note" then
        buildFuel fuel lines expected_indent
          (attachNoteToLast acc (stripQuotes (trim line.value))) (i + 1)
      else if line.keyword = toL "repeat" then
        match parseInt (trim line.value) with
        | none => buildFuel fuel lines expected_indent acc (i + 1)
        | some iterations =>
          match buildFuel fuel lines (expected_indent + 1) [] (i + 1) with
          | .error e => .error e
          | .ok (nested, next_i) =>
            if nested.isEmpty then buildFuel fuel lines expected_indent acc next_i
            else
              match mkRepeatStep iterations nested with
              | .error e => .error e
              | .ok r => buildFuel fuel lines expected_indent (acc ++ [r]) next_i
      else
        match parse_step line with
        | .error e => .error e
        | .ok none => buildFuel fuel lines expected_indent acc (i + 1)
        | .ok (some st) =>
          buildFuel fuel lines expected_indent (acc ++ [.exe st]) (i + 1)

/-- `_build_steps_recursive(parsed_lines, start_index, expected_indent)`. -/
def build_steps_recursive (lines : List ParsedLine) (start_index expected_indent : Nat) :
    Except String (List WorkoutStep × Nat) :=
  buildFuel (lines.length + 1) lines expected_indent [] start_index

/-- `build_step_tree`. -/
def build_step_tree (lines : List ParsedLine) : Except String (List WorkoutStep) :=
  if lines.isEmpty then .ok []
  else
    match build_steps_recursive lines 0 0 with
    | .error e => .error e
    | .ok (steps, _) => .ok steps

/-! ## Cell parser (`parse_workout_text`) -/

/-- `parse_workout_text`: header line (`running: Name`, running-only),
tokenize the remaining lines, build the step tree, and wrap in a `Workout`;
`.ok none` models the Python `None` returns, `.error` the propagated
exceptions. -/
def parse_workout_text (cell : List Char) : Except String (Option Workout) :=
  if (trim cell).isEmpty then .ok none
  else
    match splitNl (trim cell) with
    | [] => .ok none
    | headerLine :: restLines =>
      let header := trim headerLine
      match splitFirst ':' header with
      | none => .ok none
      | some (wt, wn) =>
        let workout_type := toLowerL (trim wt)
        let workout_name := trim wn
        if workout_type ≠ toL "running" then .ok none
        else
          let workout_name := if workout_name.isEmpty then toL "Workout" else workout_name
          let parsed_lines := restLines.filterMap parse_line
          if parsed_lines.isEmpty then .ok none
          else
            match build_step_tree parsed_lines with
            | .error e => .error e
            | .ok steps =>
              if steps.isEmpty then .ok none
              else
                match mkWorkout workout_name steps with
                | .error e => .error e
                | .ok w => .ok (some w)

/-! ## Serialization to the wire-document shape (`to_garmin_dict`) -/

/-- JSON-like documents produced by the `to_garmin_dict` methods; object
fields keep Python dict insertion order. -/
inductive GVal where
  | null
  | str (s : List Char)
  | nat (n : Nat)
  | rat (q : ℚ)
  | arr (xs : List GVal)
  | obj (fields : List (List Char × GVal))
  deriving Repr

/-- First-match association lookup in an object field list. -/
def lookupField : List (List Char × GVal) → List Char → Option GVal
  | [], _ => none
  | (k, v) :: rest, key => if k = key then some v else lookupField rest key

/-- Field access in a rendered document. -/
def GVal.getField : GVal → List Char → Option GVal
  | .obj fs, key => lookupField fs key
  | _, _ => none

/-- `Target.to_garmin_dict` fragments merged into a step document. -/
def Target.toGarminFields : Target → List (List Char × GVal)
  | .noTarget =>
    [(toL "targetType", .obj
        [(toL "workoutTargetTypeId", .nat 1),
         (toL "workoutTargetTypeKey", .str (toL "no.target"))])]
  | .hrZone z =>
    [(toL "targetType", .obj
        [(toL "workoutTargetTypeId", .nat 4),
         (toL "workoutTargetTypeKey", .str (toL "heart.rate.zone"))]),
     (toL "zoneNumber", .nat z)]
  | .pace mn mx =>
    [(toL "targetType", .obj
        [(toL "workoutTargetTypeId", .nat 6),
         (toL "workoutTargetTypeKey", .str (toL "pace.zone"))]),
     (toL "targetValueOne", .rat mn),
     (toL "targetValueTwo", .rat mx)]

/-- `EndCondition.to_garmin_dict` fragments merged into a step document. -/
def EndCondition.toGarminFields : EndCondition → List (List Char × GVal)
  | .time n =>
    [(toL "endCondition", .obj
        [(toL "conditionTypeKey", .str (toL "time")),
         (toL "conditionTypeId", .nat 2)]),
     (toL "endConditionValue", .nat n),
     (toL "preferredEndConditionUnit", .obj [(toL "unitKey", .str (toL "second"))])]
  | .distance q =>
    [(toL "endCondition", .obj
        [(toL "conditionTypeKey", .str (toL "distance")),
         (toL "conditionTypeId", .nat 3)]),
     (toL "endConditionValue", .rat q),
     (toL "preferredEndConditionUnit", .obj [(toL "unitKey", .str (toL "meter"))])]
  | .lapButton =>
    [(toL "endCondition", .obj
        [(toL "conditionTypeKey", .str (toL "lap.button")),
         (toL "conditionTypeId", .nat 1)]),
     (toL "endConditionValue", .null)]

/-- The `step_type_keys` mapping of `ExecutableStep.to_garmin_dict`
(`dict.get` with `"interval"` default). -/
def stepTypeKey : StepType → List Char
  | .warmup => toL "warmup"
  | .cooldown => toL "cooldown"
  | .interval => toL "interval"
  | .recover => toL "recovery"
  | .rest => toL "rest"
  | .rep => toL "interval"

/-- Rendered description of an executable step: cross-training prefix logic
followed by the empty-string-to-null coercion. -/
def renderedDescription (e : ExecutableStep) : GVal :=
  let d := match e.description with | some d => d | none => []
  let d :=
    if e.is_cross_training then
      if d.isEmpty then toL "[CROSS TRAINING]" else toL "[CROSS TRAINING] " ++ d
    else d
  if d.isEmpty then .null else .str d

/-- `ExecutableStep.to_garmin_dict(step_order)`. -/
def execToGarminDict (e : ExecutableStep) (step_order : Nat) : GVal :=
  .obj ([(toL "type", .str (toL "ExecutableStepDTO")),
         (toL "stepId", .null),
         (toL "stepOrder", .nat step_order),
         (toL "childStepId", .null),
         (toL "description", renderedDescription e),
         (toL "stepType", .obj
            [(toL "stepTypeId", .nat e.step_type.id),
             (toL "stepTypeKey", .str (stepTypeKey e.step_type))])]
        ++ e.end_condition.toGarminFields
        ++ e.target.toGarminFields)

mutual

/-- `to_garmin_dict(step_order)` on a `WorkoutStep`; the repeat branch is
`RepeatStep.to_garmin_dict`. -/
def stepToGarmin : WorkoutStep → Nat → GVal
  | .exe e, step_order => execToGarminDict e step_order
  | .rep its ss, step_order =>
    .obj [(toL "type", .str (toL "RepeatGroupDTO")),
          (toL "stepId", .null),
          (toL "stepOrder", .nat step_order),
          (toL "childStepId", .null),
          (toL "numberOfIterations", .nat its),
          (toL "stepType", .obj
             [(toL "stepTypeId", .nat 6),
              (toL "stepTypeKey", .str (toL "repeat"))]),
          (toL "workoutSteps", .arr (stepsToGarmin ss 0))]

/-- `enumerate`-style rendering of a step list with 0-based orders. -/
def stepsToGarmin : List WorkoutStep → Nat → List GVal
  | [], _ => []
  | s :: rest, i => stepToGarmin s i :: stepsToGarmin rest (i + 1)

end

/-! ## Input formatting for the duration round-trip property -/

/-- Decimal digits of a minute value up to 999, most significant first. -/
def formatMinutes (m : Nat) : List Char :=
  if m < 10 then [digitChar m]
  else if m < 100 then [digitChar (m / 10), digitChar (m % 10)]
  else [digitChar (m / 100), digitChar (m / 10 % 10), digitChar (m % 10)]

/-- A minutes:seconds string with 2-digit seconds. -/
def formatDuration (m s : Nat) : List Char :=
  formatMinutes m ++ ':' :: [digitChar (s / 10), digitChar (s % 10)]

/-- A sample executable step used by concrete witnesses. -/
def sampleExe : ExecutableStep :=
  ⟨.interval, toL "run", .time 120, .hrZone 4, none, false⟩

/-- Statement that a builder call starting at line `i` consumed exactly the
run of lines up to (excluding) `j`: every consumed line has indent at least
`ind`, and the scan stopped either past the end of input or at the first
line whose indent is strictly below `ind`, leaving it unconsumed. -/
def ConsumesRun (lines : List ParsedLine) (ind i j : Nat) : Prop :=
  i ≤ j
  ∧ (∀ k l, i ≤ k → k < j → lines[k]? = some l → ind ≤ l.indent_level)
  ∧ (lines[j]? = none ∨ ∃ l, lines[j]? = some l ∧ l.indent_level < ind)

/-! ## Claim theorems -/

/-- Claim C1: parsing the cell text `running: Intervals` / `- warmup: 15:00
@z2` / `- repeat: 4` / `  - run: 2:00 @z4` / `  - recover: 1:30 @z1` /
`- cooldown: 10:00 @z1` with `parse_workout_text` yields a workout named
`Intervals` with exactly the three top-level steps: warmup (900 s, HR zone
2), a 4-iteration repeat of run (120 s, zone 4) then recover (90 s, zone 1),
and cooldown (600 s, zone 1), in that order. -/
theorem C1_intervals_example_parses_exactly :
    parse_workout_text (toL "running: Intervals\n- warmup: 15:00 @z2\n- repeat: 4\n  - run: 2:00 @z4\n  - recover: 1:30 @z1\n- cooldown: 10:00 @z1") =
    .ok (some ⟨toL "Intervals", .running,
      [ .exe ⟨.warmup, toL "warmup", .time 900, .hrZone 2, none, false⟩,
        .rep 4 [ .exe ⟨.interval, toL "run", .time 120, .hrZone 4, none, false⟩,
                 .exe ⟨.recover, toL "recover", .time 90, .hrZone 1, none, false⟩ ],
        .exe ⟨.cooldown, toL "cooldown", .time 600, .hrZone 1, none, false⟩ ],
      none⟩) := by
  rfl

/-- Claim C9: a `repeat: 0` line followed by nested steps is not skipped the
way a non-integer repeat count is: the iterations-at-least-1 constraint of
the `RepeatStep` constructor raises, the error escapes the tree builder and
aborts the cell parse, whereas the same cell with `repeat: x` parses (the
repeat line and its over-indented child are dropped). -/
theorem C9_zero_repeat_count_aborts_cell_parse :
    parse_workout_text (toL "running: W\n- warmup: 10:00\n- repeat: 0\n  - run: 2:00") =
      .error "iterations must be at least 1"
    ∧ parse_workout_text (toL "running: W\n- warmup: 10:00\n- repeat: x\n  - run: 2:00") =
      .ok (some ⟨toL "W", .running,
        [ .exe ⟨.warmup, toL "warmup", .time 600, .noTarget, none, false⟩ ], none⟩) :=
  ⟨by rfl, by rfl⟩

/-- Claim C10: on the syntactically valid pace-range target `0:00-4:00` the
pace converter yields speed 0 for the `0:00` endpoint, the `PaceTarget`
constructor requires strictly positive speeds, and `parse_target` therefore
raises instead of degrading to `NoTarget`. -/
theorem C10_zero_pace_endpoint_raises :
    parse_target (toL "0:00-4:00") = .error "speed must be greater than 0" := by
  rfl

/-- Claim C2, counterexample: `parse_end_condition_and_target` does not
return normally on every input string: on `5:75` the time pattern matches,
and the duration parser raises on the out-of-range seconds field. -/
theorem C2_counterexample_seconds_overflow_raises :
    parse_end_condition_and_target (toL "5:75") = .error "Invalid seconds value" := by
  rfl

/-- Claim C2, amended: when the part before any `@` is not the lap-button
literal and matches neither the time pattern nor the distance pattern — and
the target part after `@`, when present, parses without raising — the
function returns `LapButtonEndCondition` with that target rather than
raising; inputs whose pre-`@` part matches a pattern (or whose target part
raises) can still raise. -/
theorem C2_unmatched_end_condition_degrades_to_lap_button :
    (∀ v, splitFirst '@' (trim v) = none →
      toLowerL (trim v) ≠ toL "lap-button" →
      matchTime (trim v) = none →
      matchDistance (toLowerL (trim v)) = none →
      parse_end_condition_and_target v = .ok (.lapButton, .noTarget))
    ∧ (∀ v pre tgt T, splitFirst '@' (trim v) = some (pre, tgt) →
      parse_target tgt = .ok T →
      toLowerL (trim pre) ≠ toL "lap-button" →
      matchTime (trim pre) = none →
      matchDistance (toLowerL (trim pre)) = none →
      parse_end_condition_and_target v = .ok (.lapButton, T)) := by
  constructor
  · intro v hsplit hlap htime hdist
    simp [parse_end_condition_and_target, hsplit, hlap, htime, hdist]
  · intro v pre tgt T hsplit htgt hlap htime hdist
    simp [parse_end_condition_and_target, hsplit, htgt, hlap, htime, hdist]

/-- Witness for the amended C2 theorem at the concrete input `jogging`. -/
theorem C2_witness_unparseable_value :
    parse_end_condition_and_target (toL "jogging") = .ok (.lapButton, .noTarget) :=
  C2_unmatched_end_condition_degrades_to_lap_button.1 (toL "jogging")
    (by rfl) (by decide) (by rfl) (by rfl)

/-- Whenever the `PaceTarget` constructor succeeds, the produced speeds are
ordered. -/
lemma mkPaceTarget_ok_le (a b mn mx : ℚ) (h : mkPaceTarget a b = .ok (.pace mn mx)) :
    mn ≤ mx := by
  unfold mkPaceTarget at h
  by_cases h1 : a ≤ 0 ∨ b ≤ 0
  · rw [if_pos h1] at h
    exact absurd h (by simp)
  · rw [if_neg h1] at h
    by_cases h2 : a > b
    · rw [if_pos h2] at h
      rw [Except.ok.injEq, Target.pace.injEq] at h
      obtain ⟨hb, ha⟩ := h
      rw [← hb, ← ha]
      exact le_of_lt h2
    · rw [if_neg h2] at h
      rw [Except.ok.injEq, Target.pace.injEq] at h
      obtain ⟨ha, hb⟩ := h
      rw [← ha, ← hb]
      exact not_lt.mp h2

/-- Claim C3: whenever `parse_target` produces a `PaceTarget`, its speeds
satisfy `min_speed_mps ≤ max_speed_mps`, for every input (hence regardless
of which endpoint was textually first and of the unit suffix); and the
`PaceTarget` constructor sorts any two positive speeds it is given. -/
theorem C3_pace_target_speeds_are_ordered :
    (∀ l mn mx, parse_target l = .ok (.pace mn mx) → mn ≤ mx)
    ∧ (∀ a b : ℚ, 0 < a → 0 < b →
        mkPaceTarget a b = .ok (.pace (min a b) (max a b))) := by
  constructor
  · intro l mn mx h
    unfold parse_target at h
    split_ifs at h with hz hp
    · cases hhr : parse_hr_zone (trim l) with
      | error e => rw [hhr] at h; exact absurd h (by simp)
      | ok z =>
        rw [hhr] at h
        simp only [mkHeartRateZoneTarget] at h
        by_cases hr : 1 ≤ z ∧ z ≤ 5
        · rw [if_pos hr] at h
          exact absurd h (by simp)
        · rw [if_neg hr] at h
          exact absurd h (by simp)
    · cases hpp : parse_pace_to_meters_per_second (trim l) with
      | error e => rw [hpp] at h; exact absurd h (by simp)
      | ok p =>
        rw [hpp] at h
        exact mkPaceTarget_ok_le p.1 p.2 mn mx h
    · exact absurd h (by simp)
  · intro a b ha hb
    unfold mkPaceTarget
    rw [if_neg (by simp only [not_or, not_le]; exact ⟨ha, hb⟩)]
    by_cases hab : b < a
    · rw [if_pos hab, min_eq_right hab.le, max_eq_left hab.le]
    · rw [if_neg hab, min_eq_left (not_lt.mp hab), max_eq_right (not_lt.mp hab)]

/-- Witness for C3 at the concrete reversed pair (2, 1): the constructor
swaps it into an ordered pair. -/
theorem C3_witness_constructor_swaps :
    mkPaceTarget 2 1 = .ok (.pace (min (2 : ℚ) 1) (max (2 : ℚ) 1)) :=
  C3_pace_target_speeds_are_ordered.2 2 1 (by norm_num) (by norm_num)

/-- Claim C8: every cell whose header sport keyword (the text before the
first colon of the first non-blank line, trimmed and lowercased) is not
`running` makes `parse_workout_text` return no workout, regardless of the
remaining lines. -/
theorem C8_non_running_header_discards_cell (cell wt wn : List Char)
    (hsplit : splitFirst ':' (trim ((splitNl (trim cell)).headD [])) = some (wt, wn))
    (hsport : toLowerL (trim wt) ≠ toL "running") :
    parse_workout_text cell = .ok none := by
  unfold parse_workout_text
  by_cases hempty : (trim cell).isEmpty
  · simp [hempty]
  · cases hnl : splitNl (trim cell) with
    | nil => simp [hempty, hnl]
    | cons h0 rest =>
      rw [hnl] at hsplit
      simp only [List.headD_cons] at hsplit
      simp [hempty, hnl, hsplit, hsport]

/-- Witness for C8 at a concrete cycling cell with a well-formed step line. -/
theorem C8_witness_cycling_cell :
    parse_workout_text (toL "cycling: Ride\n- run: 20:00") = .ok none :=
  C8_non_running_header_discards_cell (toL "cycling: Ride\n- run: 20:00")
    (toL "cycling") (toL " Ride") (by rfl) (by decide)

/-- When the last accumulated sibling is an executable step, the note text
updates exactly that step's description. -/
lemma attachNoteToLast_exe (acc : List WorkoutStep) (e : ExecutableStep) (t : List Char) :
    attachNoteToLast (acc ++ [.exe e]) t = acc ++ [.exe (attachNote e t)] := by
  simp [attachNoteToLast, List.getLast?_concat, List.dropLast_concat]

/-- When the last accumulated sibling is a repeat group whose last nested
step is executable, the note text updates that nested step. -/
lemma attachNoteToLast_rep (acc : List WorkoutStep) (its : Nat) (ss : List WorkoutStep)
    (e : ExecutableStep) (t : List Char) :
    attachNoteToLast (acc ++ [.rep its (ss ++ [.exe e])]) t =
      acc ++ [.rep its (ss ++ [.exe (attachNote e t)])] := by
  simp [attachNoteToLast, List.getLast?_concat, List.dropLast_concat]

/-- Claim C6: a note line at the expected indent attaches its quote-stripped
value to the most recently built sibling — directly when that sibling is an
executable step, and to the last step inside the repeat group's nested list
(not to the repeat step itself) when the sibling is a repeat group whose
last nested step is executable; in particular, the lines `- run: 2:00` then
`- note: "nice"` produce an executable step whose description is `nice`. -/
theorem C6_note_attaches_to_previous_sibling :
    (∀ (fuel : Nat) (lines : List ParsedLine) (ind : Nat) (acc : List WorkoutStep)
       (i : Nat) (line : ParsedLine) (e : ExecutableStep),
      lines[i]? = some line → line.keyword = toL "note" → line.indent_level = ind →
      buildFuel (fuel + 1) lines ind (acc ++ [.exe e]) i =
        buildFuel fuel lines ind
          (acc ++ [.exe (attachNote e (stripQuotes (trim line.value)))]) (i + 1))
    ∧ (∀ (fuel : Nat) (lines : List ParsedLine) (ind : Nat) (acc : List WorkoutStep)
         (i : Nat) (line : ParsedLine) (its : Nat) (ss : List WorkoutStep)
         (e : ExecutableStep),
      lines[i]? = some line → line.keyword = toL "note" → line.indent_level = ind →
      buildFuel (fuel + 1) lines ind (acc ++ [.rep its (ss ++ [.exe e])]) i =
        buildFuel fuel lines ind
          (acc ++ [.rep its (ss ++ [.exe (attachNote e (stripQuotes (trim line.value)))])])
          (i + 1))
    ∧ build_step_tree ((["- run: 2:00", "- note: \"nice\""].map toL).filterMap parse_line) =
        .ok [.exe ⟨.interval, toL "run", .time 120, .noTarget, some (toL "nice"), false⟩] := by
  refine ⟨?_, ?_, by rfl⟩
  · intro fuel lines ind acc i line e hget hkw hind
    simp [buildFuel, hget, hkw, hind, attachNoteToLast_exe]
  · intro fuel lines ind acc i line its ss e hget hkw hind
    simp [buildFuel, hget, hkw, hind, attachNoteToLast_rep]

/-- Witness for C6 part one: a single note line after an accumulated run
step attaches the text `hi` to it. -/
theorem C6_witness_note_line :
    buildFuel 1 [⟨0, toL "note", toL "\x22hi\x22", none⟩] 0 ([] ++ [.exe sampleExe]) 0 =
      buildFuel 0 [⟨0, toL "note", toL "\x22hi\x22", none⟩] 0
        ([] ++ [.exe (attachNote sampleExe
          (stripQuotes (trim (toL "\x22hi\x22"))))]) 1 :=
  C6_note_attaches_to_previous_sibling.1 0 [⟨0, toL "note", toL "\x22hi\x22", none⟩] 0 []
    0 ⟨0, toL "note", toL "\x22hi\x22", none⟩ sampleExe (by rfl) (by rfl) (by rfl)

/-- Rendering a step list starting at order `k` places the render of the
`i`-th element at position `i` with order `k + i`. -/
lemma stepsToGarmin_get (ss : List WorkoutStep) :
    ∀ (k i : Nat) (s : WorkoutStep), ss[i]? = some s →
      (stepsToGarmin ss k)[i]? = some (stepToGarmin s (k + i)) := by
  induction ss with
  | nil => intro k i s h; simp at h
  | cons hd tl ih =>
    intro k i s h
    cases i with
    | zero => simp at h; simp [stepsToGarmin, h]
    | succ n =>
      simp at h
      have h2 := ih (k + 1) n s h
      have h3 : k + 1 + n = k + (n + 1) := by omega
      simp only [stepsToGarmin, List.getElem?_cons_succ]
      rw [h2, h3]

/-- Claim C7: for every repeat step and every step order, the rendered
document carries the `RepeatGroupDTO` type discriminator, a
`numberOfIterations` field equal to the iterations field, and a
`workoutSteps` array whose `i`-th entry is the `i`-th child rendered with
step order `i`, independent of the parent order. -/
theorem C7_repeat_render_shape (its : Nat) (ss : List WorkoutStep) (step_order : Nat) :
    (stepToGarmin (.rep its ss) step_order).getField (toL "type") =
      some (.str (toL "RepeatGroupDTO"))
    ∧ (stepToGarmin (.rep its ss) step_order).getField (toL "numberOfIterations") =
      some (.nat its)
    ∧ (stepToGarmin (.rep its ss) step_order).getField (toL "workoutSteps") =
      some (.arr (stepsToGarmin ss 0))
    ∧ (∀ (i : Nat) (s : WorkoutStep), ss[i]? = some s →
        (stepsToGarmin ss 0)[i]? = some (stepToGarmin s i)) := by
  refine ⟨by rfl, by rfl, by rfl, ?_⟩
  intro i s h
  have := stepsToGarmin_get ss 0 i s h
  simpa using this

/-- Consuming one line of indent at least `ind` at position `i` extends a
consumed run starting at `i + 1`. -/
lemma consumesRun_extend (lines : List ParsedLine) (ind i j : Nat) (line : ParsedLine)
    (hg : lines[i]? = some line) (hind : ind ≤ line.indent_level)
    (hrec : ConsumesRun lines ind (i + 1) j) : ConsumesRun lines ind i j := by
  obtain ⟨h1, h2, h3⟩ := hrec
  refine ⟨by omega, ?_, h3⟩
  intro k l hk1 hk2 hkl
  rcases Nat.eq_or_lt_of_le hk1 with heq | hlt
  · subst heq
    rw [hg] at hkl
    rw [← Option.some.inj hkl]
    exact hind
  · exact h2 k l (by omega) hk2 hkl

/-- A repeat line at `i`, a nested run at indent `ind + 1` from `i + 1` to
`next_i`, and a continuation run from `next_i` to `j` together form one
consumed run at indent `ind` from `i` to `j`. -/
lemma consumesRun_repeat (lines : List ParsedLine) (ind i next_i j : Nat) (line : ParsedLine)
    (hg : lines[i]? = some line) (hind : ind ≤ line.indent_level)
    (hnested : ConsumesRun lines (ind + 1) (i + 1) next_i)
    (hcont : ConsumesRun lines ind next_i j) : ConsumesRun lines ind i j := by
  obtain ⟨hn1, hn2, -⟩ := hnested
  obtain ⟨hc1, hc2, hc3⟩ := hcont
  refine ⟨by omega, ?_, hc3⟩
  intro k l hk1 hk2 hkl
  by_cases hki : k = i
  · subst hki
    rw [hg] at hkl
    rw [← Option.some.inj hkl]
    exact hind
  · by_cases hkn : k < next_i
    · have := hn2 k l (by omega) hkn hkl
      omega
    · exact hc2 k l (by omega) hk2 hkl

/-- Every successful builder call consumes exactly a maximal run of lines of
indent at least the expected indent. -/
lemma buildFuel_consumes (fuel : Nat) :
    ∀ (lines : List ParsedLine) (ind : Nat) (acc : List WorkoutStep) (i : Nat)
      (steps : List WorkoutStep) (j : Nat),
      buildFuel fuel lines ind acc i = .ok (steps, j) → ConsumesRun lines ind i j := by
  induction fuel with
  | zero =>
    intro lines ind acc i steps j h
    simp [buildFuel] at h
  | succ n ih =>
    intro lines ind acc i steps j h
    rw [buildFuel] at h
    cases hg : lines[i]? with
    | none =>
      rw [hg] at h
      simp only [Except.ok.injEq, Prod.mk.injEq] at h
      obtain ⟨-, rfl⟩ := h
      exact ⟨Nat.le_refl _, fun k l hk1 hk2 _ => by omega, Or.inl hg⟩
    | some line =>
      rw [hg] at h
      by_cases h1 : line.indent_level < ind
      · simp only [if_pos h1, Except.ok.injEq, Prod.mk.injEq] at h
        obtain ⟨-, rfl⟩ := h
        exact ⟨Nat.le_refl _, fun k l hk1 hk2 _ => by omega, Or.inr ⟨line, hg, h1⟩⟩
      · have hind : ind ≤ line.indent_level := by omega
        by_cases h2 : ind < line.indent_level
        · simp only [if_neg h1, if_pos h2] at h
          exact consumesRun_extend _ _ _ _ _ hg hind (ih _ _ _ _ _ _ h)
        · by_cases h3 : line.keyword = toL "note"
          · simp only [if_neg h1, if_neg h2, if_pos h3] at h
            exact consumesRun_extend _ _ _ _ _ hg hind (ih _ _ _ _ _ _ h)
          · by_cases h4 : line.keyword = toL "repeat"
            · simp only [if_neg h1, if_neg h2, if_neg h3, if_pos h4] at h
              cases hpi : parseInt (trim line.value) with
              | none =>
                rw [hpi] at h
                simp only [] at h
                exact consumesRun_extend _ _ _ _ _ hg hind (ih _ _ _ _ _ _ h)
              | some its =>
                rw [hpi] at h
                simp only [] at h
                cases hnb : buildFuel n lines (ind + 1) [] (i + 1) with
                | error e =>
                  rw [hnb] at h
                  exact absurd h (by simp)
                | ok p =>
                  obtain ⟨nested, next_i⟩ := p
                  rw [hnb] at h
                  simp only [] at h
                  have hnrec := ih _ _ _ _ _ _ hnb
                  by_cases hne : nested.isEmpty = true
                  · rw [if_pos hne] at h
                    exact consumesRun_repeat _ _ _ _ _ _ hg hind hnrec (ih _ _ _ _ _ _ h)
                  · rw [if_neg hne] at h
                    cases hmk : mkRepeatStep its nested with
                    | error e =>
                      rw [hmk] at h
                      exact absurd h (by simp)
                    | ok r =>
                      rw [hmk] at h
                      simp only [] at h
                      exact consumesRun_repeat _ _ _ _ _ _ hg hind hnrec (ih _ _ _ _ _ _ h)
            · simp only [if_neg h1, if_neg h2, if_neg h3, if_neg h4] at h
              cases hps : parse_step line with
              | error e =>
                rw [hps] at h
                exact absurd h (by simp)
              | ok o =>
                rw [hps] at h
                cases o with
                | none =>
                  simp only [] at h
                  exact consumesRun_extend _ _ _ _ _ hg hind (ih _ _ _ _ _ _ h)
                | some st =>
                  simp only [] at h
                  exact consumesRun_extend _ _ _ _ _ hg hind (ih _ _ _ _ _ _ h)

/-- Claim C5: for every line list, start index, and expected indent, a
normal return of the recursive tree builder consumes exactly the maximal
contiguous run of lines starting at the start index whose indent level is at
least the expected indent: the returned next index is past the end of input
or is the first position at or after the start whose line has indent level
strictly below the expected indent, and that line is left unconsumed. -/
theorem C5_builder_consumes_maximal_indent_run (lines : List ParsedLine)
    (start_index expected_indent : Nat) (steps : List WorkoutStep) (next_index : Nat)
    (h : build_steps_recursive lines start_index expected_indent = .ok (steps, next_index)) :
    start_index ≤ next_index
    ∧ (∀ k l, start_index ≤ k → k < next_index → lines[k]? = some l →
        expected_indent ≤ l.indent_level)
    ∧ (lines[next_index]? = none ∨
        ∃ l, lines[next_index]? = some l ∧ l.indent_level < expected_indent) :=
  buildFuel_consumes (lines.length + 1) lines expected_indent [] start_index steps
    next_index h

/-- Witness for C5: a single line of indent 1 scanned with expected indent 2
is left unconsumed and the next index stays at the start. -/
theorem C5_witness_stops_at_shallower_line :
    0 ≤ 0
    ∧ (∀ k l, 0 ≤ k → k < 0 →
        ([⟨1, toL "run", toL "2:00", none⟩] : List ParsedLine)[k]? = some l →
        2 ≤ l.indent_level)
    ∧ (([⟨1, toL "run", toL "2:00", none⟩] : List ParsedLine)[0]? = none ∨
        ∃ l, ([⟨1, toL "run", toL "2:00", none⟩] : List ParsedLine)[0]? = some l ∧
          l.indent_level < 2) :=
  C5_builder_consumes_maximal_indent_run [⟨1, toL "run", toL "2:00", none⟩] 0 2 [] 0
    (by rfl)

/-- Digit characters decode back to their value. -/
lemma dv_digitChar : ∀ x, x < 10 → dv (digitChar x) = x := by decide

/-- Digit characters satisfy the digit test. -/
lemma isDigit_digitChar : ∀ x, x < 10 → (digitChar x).isDigit = true := by decide

/-- Digit characters are not whitespace. -/
lemma pyIsSpace_digitChar : ∀ x, x < 10 → pyIsSpace (digitChar x) = false := by decide

/-- Left strip leaves a list headed by a non-space character unchanged. -/
lemma lstrip_cons_of_ne (c : Char) (l : List Char) (h : pyIsSpace c = false) :
    lstrip (c :: l) = c :: l := by
  simp [lstrip, List.dropWhile_cons, h]

/-- Right strip leaves a list ending in a non-space character unchanged. -/
lemma rstrip_concat_of_ne (l : List Char) (c : Char) (h : pyIsSpace c = false) :
    rstrip (l ++ [c]) = l ++ [c] := by
  simp [rstrip, List.reverse_append, List.dropWhile_cons, h]

/-- Formatted durations carry no surrounding whitespace. -/
lemma trim_formatDuration (m s : Nat) (hm : m ≤ 999) (hs : s ≤ 59) :
    trim (formatDuration m s) = formatDuration m s := by
  obtain ⟨y, t, hy, hform⟩ : ∃ y t, y < 10 ∧ formatMinutes m = digitChar y :: t := by
    unfold formatMinutes
    split_ifs with h1 h2
    · exact ⟨m, [], h1, rfl⟩
    · exact ⟨m / 10, [digitChar (m % 10)], by omega, rfl⟩
    · exact ⟨m / 100, [digitChar (m / 10 % 10), digitChar (m % 10)], by omega, rfl⟩
  have hhead : formatDuration m s =
      digitChar y :: (t ++ ':' :: [digitChar (s / 10), digitChar (s % 10)]) := by
    simp [formatDuration, hform]
  have hlast : formatDuration m s =
      (digitChar y :: (t ++ [':', digitChar (s / 10)])) ++ [digitChar (s % 10)] := by
    simp [formatDuration, hform]
  rw [trim, hhead, lstrip_cons_of_ne _ _ (pyIsSpace_digitChar y hy), ← hhead, hlast,
      rstrip_concat_of_ne _ _ (pyIsSpace_digitChar _ (by omega))]

/-- The time regex recovers the minute and second values from a formatted
duration. -/
lemma matchTime_formatDuration (m s : Nat) (hm : m ≤ 999) (hs : s ≤ 59) :
    matchTime (formatDuration m s) = some (m, s) := by
  unfold formatDuration formatMinutes
  split_ifs with h1 h2
  · show matchTime [digitChar m, ':', digitChar (s / 10), digitChar (s % 10)] =
      some (m, s)
    rw [matchTime]
    simp [isDigit_digitChar m h1, isDigit_digitChar (s / 10) (by omega),
      isDigit_digitChar (s % 10) (by omega), dv_digitChar m h1,
      dv_digitChar (s / 10) (by omega), dv_digitChar (s % 10) (by omega)]
    omega
  · show matchTime [digitChar (m / 10), digitChar (m % 10), ':',
      digitChar (s / 10), digitChar (s % 10)] = some (m, s)
    rw [matchTime]
    simp [isDigit_digitChar (m / 10) (by omega), isDigit_digitChar (m % 10) (by omega),
      isDigit_digitChar (s / 10) (by omega), isDigit_digitChar (s % 10) (by omega),
      dv_digitChar (m / 10) (by omega), dv_digitChar (m % 10) (by omega),
      dv_digitChar (s / 10) (by omega), dv_digitChar (s % 10) (by omega)]
    omega
  · show matchTime [digitChar (m / 100), digitChar (m / 10 % 10), digitChar (m % 10),
      ':', digitChar (s / 10), digitChar (s % 10)] = some (m, s)
    rw [matchTime]
    simp [isDigit_digitChar (m / 100) (by omega), isDigit_digitChar (m / 10 % 10) (by omega),
      isDigit_digitChar (m % 10) (by omega), isDigit_digitChar (s / 10) (by omega),
      isDigit_digitChar (s % 10) (by omega), dv_digitChar (m / 100) (by omega),
      dv_digitChar (m / 10 % 10) (by omega), dv_digitChar (m % 10) (by omega),
      dv_digitChar (s / 10) (by omega), dv_digitChar (s % 10) (by omega)]
    omega

/-- Claim C4: formatting any minutes value up to 999 and seconds value up to
59 as a minutes:seconds string and parsing it back recovers exactly
`m * 60 + s` seconds; the lap-button literal in any letter case parses to
the no-duration result; and any string of neither shape (not lap-button,
and failing the time regex or carrying an out-of-range seconds field)
raises. -/
theorem C4_duration_round_trip :
    (∀ m s, m ≤ 999 → s ≤ 59 →
      parse_duration_to_seconds (formatDuration m s) = .ok (some (m * 60 + s)))
    ∧ (∀ l, toLowerL l = toL "lap-button" → parse_duration_to_seconds l = .ok none)
    ∧ (∀ l, toLowerL l ≠ toL "lap-button" →
        (∀ mm ss, matchTime (trim l) = some (mm, ss) → 60 ≤ ss) →
        ∃ e, parse_duration_to_seconds l = .error e) := by
  refine ⟨?_, ?_, ?_⟩
  · intro m s hm hs
    have hne : toLowerL (formatDuration m s) ≠ toL "lap-button" := by
      intro hcontr
      have hlen := congrArg List.length hcontr
      have h6 : (formatDuration m s).length ≤ 6 := by
        unfold formatDuration formatMinutes
        split_ifs <;> simp
      rw [toLowerL, List.length_map] at hlen
      have h10 : (toL "lap-button").length = 10 := by rfl
      omega
    rw [parse_duration_to_seconds, if_neg hne, trim_formatDuration m s hm hs,
        matchTime_formatDuration m s hm hs]
    simp only []
    rw [if_neg (by omega)]
  · intro l hl
    rw [parse_duration_to_seconds, if_pos hl]
  · intro l hne hbad
    rw [parse_duration_to_seconds, if_neg hne]
    cases hmt : matchTime (trim l) with
    | none => exact ⟨_, rfl⟩
    | some p =>
      obtain ⟨mm, ss⟩ := p
      simp only []
      rw [if_pos (hbad mm ss hmt)]
      exact ⟨_, rfl⟩

/-- Witness for C4: the pair (15, 0) formats to a string parsing back to 900
seconds. -/
theorem C4_witness_round_trip :
    parse_duration_to_seconds (formatDuration 15 0) = .ok (some (15 * 60 + 0)) :=
  C4_duration_round_trip.1 15 0 (by decide) (by decide)

/-- Witness for C7: the one-child repeat group renders its child at position
0 with order 0. -/
theorem C7_witness_child_order :
    (stepsToGarmin [WorkoutStep.exe sampleExe] 0)[0]? =
      some (stepToGarmin (.exe sampleExe) 0) :=
  (C7_repeat_render_shape 4 [.exe sampleExe] 7).2.2.2 0 (.exe sampleExe) (by rfl)

end Garmin
